import Mathlib

/-!
Verification development for the Octra wallet core
(src/src/utils/api.ts, src/src/utils/wallet.ts,
src/src/components/WelcomeScreen.tsx MultiSend handler).

JavaScript numbers that the code manipulates are embedded as `Rat`
(all the values involved are finite decimals); a possible NaN is
embedded as `Option Rat` with `none` standing for NaN (JSON bodies
cannot carry NaN, so only `parseFloat`/`parseInt` results can be NaN).
A thrown exception escaping a function is embedded as `Except.error`.
External primitives (parseFloat, parseInt, base64/hex codecs, the
tweetnacl sign/verify pair) are parameters of the embedded functions,
constrained by hypotheses where a claim needs their contract.
-/

/-- Result record of `fetchBalance` (interface `BalanceResponse`). -/
structure BalanceResponse where
  balance : Rat
  nonce : Rat
  deriving Repr, DecidableEq

/-- The `balance` field of the `/balance/{address}` JSON body:
a JSON number, a JSON string, or absent/null. -/
inductive BalField where
  | num (q : Rat)
  | str (s : String)
  | absent
  deriving Repr, DecidableEq

/-- JSON body of a 2xx `/balance/{address}` response, restricted to the
fields the code reads: `balance` and `nonce` (a JSON number or absent). -/
structure BalanceBody where
  balance : BalField
  nonce : Option Rat
  deriving Repr, DecidableEq

/-- Outcome of the `/balance/{address}` request as `fetchBalance` observes it. -/
inductive BalanceOutcome where
  | netFail (msg : String)
  | notOk (status : Nat)
  | badJson (msg : String)
  | okBody (body : BalanceBody)
  deriving Repr, DecidableEq

/-- One staged transaction as read from `/staging`:
the code uses `tx.from` and `parseInt(tx.nonce)`. -/
structure StagedTx where
  from_ : String
  nonce : String
  deriving Repr, DecidableEq

/-- Outcome of the best-effort `/staging` request in `fetchBalance`:
a rejected fetch (turned into `\x7bok: false\x7d` by the attached catch),
a non-2xx response, a 2xx response whose body is not JSON, or a JSON body
(`staged_transactions` absent or present). -/
inductive StagingOutcome where
  | netFail
  | notOk
  | badJson
  | okBody (staged : Option (List StagedTx))
  deriving Repr, DecidableEq

/-- JavaScript `Math.max(x, xs...)` over a nonempty list, folded pairwise. -/
def jsMaxList : List Rat → Rat
  | [] => 0
  | x :: rest => rest.foldl max x

/-- Embedding of `typeof data.balance === 'string' ? parseFloat(data.balance)
: (data.balance || 0)`; `pf` is `parseFloat`, `none` is NaN.  A JSON number
is finite, and `q || 0` only rewrites `0` to `0`, so the non-string branch
never yields NaN. -/
def parsedBalance (pf : String → Option Rat) : BalField → Option Rat
  | .num q => some q
  | .str s => pf s
  | .absent => some 0

/-- Embedding of the nonce computation of `fetchBalance` given a 2xx balance
body: start from `data.nonce || 0`, and when the staging read succeeded and
this address has staged transactions, take the max with
`Math.max(...ourPendingTxs.map(tx => parseInt(tx.nonce) || 0))`.
`pint` is `parseInt` (integer-valued, `none` is NaN). -/
def fetchBalanceNonce (pint : String → Option Rat) (address : String)
    (body : BalanceBody) (st : StagingOutcome) : Rat :=
  let transactionCount : Rat := body.nonce.getD 0
  match st with
  | .okBody (some staged) =>
      let ourPendingTxs := staged.filter (fun tx => tx.from_ = address)
      if ourPendingTxs.isEmpty then transactionCount
      else
        let maxPendingNonce :=
          jsMaxList (ourPendingTxs.map (fun tx => (pint tx.nonce).getD 0))
        max transactionCount maxPendingNonce
  | _ => transactionCount

/-- Embedding of `fetchBalance` (src/src/utils/api.ts lines 9-59).
`Except.error` models the rethrow in the outer catch. -/
def fetchBalance (pf pint : String → Option Rat) (address : String)
    (bo : BalanceOutcome) (st : StagingOutcome) :
    Except String BalanceResponse :=
  match bo with
  | .netFail msg => .error msg
  | .notOk status => .error ("Error " ++ toString status)
  | .badJson msg => .error msg
  | .okBody body =>
      let balance? := parsedBalance pf body.balance
      let nonce := fetchBalanceNonce pint address body st
      match balance? with
      | none => .ok ⟨0, 0⟩
      | some b => .ok ⟨b, nonce⟩

/-- Lowercase hex digit, as produced by JS `\u00xx` escapes. -/
def hexDigitChar (n : Nat) : Char :=
  if n < 10 then Char.ofNat (48 + n) else Char.ofNat (87 + n)

/-- Escaping of one character by `JSON.stringify` for a JS string value. -/
def escapeJsonChar (c : Char) : String :=
  if c = '"' then "\\\""
  else if c = '\\' then "\\\\"
  else if c = Char.ofNat 8 then "\\b"
  else if c = Char.ofNat 9 then "\\t"
  else if c = Char.ofNat 10 then "\\n"
  else if c = Char.ofNat 12 then "\\f"
  else if c = Char.ofNat 13 then "\\r"
  else if c.toNat < 32 then
    "\\u00" ++ String.mk [hexDigitChar (c.toNat / 16), hexDigitChar (c.toNat % 16)]
  else String.mk [c]

/-- `JSON.stringify` of a JS string: quoted and escaped. -/
def jsonQuote (s : String) : String :=
  "\"" ++ String.join (s.data.map escapeJsonChar) ++ "\""

/-- UTF-8 bytes of a string (`new TextEncoder().encode(s)`). -/
def utf8Bytes (s : String) : List Nat :=
  s.toUTF8.toList.map (fun b => b.toNat)

/-- `dst.set(src, off)` on a Uint8Array embedded as a list
(defined for `off + src.length ≤ base.length`, which the code guarantees). -/
def uint8set (base : List Nat) (off : Nat) (src : List Nat) : List Nat :=
  base.take off ++ src ++ base.drop (off + src.length)

/-- The compact JSON the code signs: `JSON.stringify(signingObject, null, 0)`
where `signingObject` has exactly the keys `from, to_, amount, nonce, ou,
timestamp` in that insertion order (api.ts lines 365-374).  `numToStr` is
the JS number-to-string conversion used by JSON.stringify. -/
def txSigningData (numToStr : Rat → String)
    (from_ to_ amountStr : String) (nonce : Rat) (ou : String)
    (timestamp : Rat) : String :=
  "\x7b\"from\":" ++ jsonQuote from_ ++
  ",\"to_\":" ++ jsonQuote to_ ++
  ",\"amount\":" ++ jsonQuote amountStr ++
  ",\"nonce\":" ++ numToStr nonce ++
  ",\"ou\":" ++ jsonQuote ou ++
  ",\"timestamp\":" ++ numToStr timestamp ++ "\x7d"

/-- The signing payload as claim C2 words it: same six fields, but with the
recipient serialized under the JSON key `to`.  Kept only to compare the
claimed payload with the payload the code actually signs. -/
def claimedSigningData (numToStr : Rat → String)
    (from_ to_ amountStr : String) (nonce : Rat) (ou : String)
    (timestamp : Rat) : String :=
  "\x7b\"from\":" ++ jsonQuote from_ ++
  ",\"to\":" ++ jsonQuote to_ ++
  ",\"amount\":" ++ jsonQuote amountStr ++
  ",\"nonce\":" ++ numToStr nonce ++
  ",\"ou\":" ++ jsonQuote ou ++
  ",\"timestamp\":" ++ numToStr timestamp ++ "\x7d"

/-- Transaction record built by `createTransaction` (interface `Transaction`). -/
structure TxRecord where
  from_ : String
  to_ : String
  amount : String
  nonce : Rat
  ou : String
  timestamp : Rat
  message : Option String
  signature : Option String
  public_key : Option String
  deriving Repr, DecidableEq

/-- The external signing primitives (tweetnacl and Buffer base64 encoding). -/
structure SignPrims where
  sign : List Nat → List Nat → List Nat
  verify : List Nat → List Nat → List Nat → Bool
  b64encode : List Nat → String

/-- The `ou` tag of `createTransaction`: `amount < 1000 ? "1" : "3"`. -/
def ouTag (amount : Rat) : String :=
  if amount < 1000 then "1" else "3"

/-- The micro-unit amount string: `Math.floor(amount * 1_000_000).toString()`. -/
def amountMuStr (amount : Rat) : String :=
  toString ((amount * 1000000).floor : Int)

/-- The timestamp of `createTransaction`:
`Math.floor((Date.now() / 1000 + Math.random() * 0.01) * 1000) / 1000`,
with `nowMs` for `Date.now()` and `rand` for `Math.random()`. -/
def txTimestamp (nowMs rand : Rat) : Rat :=
  (((nowMs / 1000 + rand * (1 / 100)) * 1000).floor : Int) / 1000

/-- The exact string `createTransaction` passes to `nacl.sign.detached`. -/
def createTxSigningData (numToStr : Rat → String) (nowMs rand : Rat)
    (senderAddress recipientAddress : String) (amount nonce : Rat) : String :=
  txSigningData numToStr senderAddress recipientAddress
    (amountMuStr amount) nonce (ouTag amount) (txTimestamp nowMs rand)

/-- The 64-byte nacl secret key built by `createTransaction`:
a zeroed Uint8Array(64) overwritten with the decoded private key at
offset 0 and the decoded public key at offset 32. -/
def naclSecretKey (privateKeyBuffer publicKeyBuffer : List Nat) : List Nat :=
  uint8set (uint8set (List.replicate 64 0) 0 privateKeyBuffer) 32 publicKeyBuffer

/-- Embedding of `createTransaction` (src/src/utils/api.ts lines 329-393).
`b64dec`/`hexdec` stand for `Buffer.from(-, 'base64'/'hex')`. -/
def createTransaction (p : SignPrims) (b64dec hexdec : String → List Nat)
    (numToStr : Rat → String) (nowMs rand : Rat)
    (senderAddress recipientAddress : String) (amount nonce : Rat)
    (privateKeyBase64 publicKeyHex : String) (message : Option String) :
    TxRecord :=
  let signingData := createTxSigningData numToStr nowMs rand
    senderAddress recipientAddress amount nonce
  let privateKeyBuffer := b64dec privateKeyBase64
  let publicKeyBuffer := hexdec publicKeyHex
  let secretKey := naclSecretKey privateKeyBuffer publicKeyBuffer
  let signature := p.sign (utf8Bytes signingData) secretKey
  { from_ := senderAddress
    to_ := recipientAddress
    amount := amountMuStr amount
    nonce := nonce
    ou := ouTag amount
    timestamp := txTimestamp nowMs rand
    message := match message with
      | some m => if m = "" then none else some m
      | none => none
    signature := some (p.b64encode signature)
    public_key := some (p.b64encode publicKeyBuffer) }

/-- A character matched by `\s` in the JS regex (ASCII whitespace and NBSP;
the exotic Unicode space characters never occur in the node responses). -/
def isJsWhitespace (c : Char) : Bool :=
  (9 ≤ c.toNat && c.toNat ≤ 13) || c.toNat = 32 || c.toNat = 160 ||
  c.toNat = 65279

/-- A character matched by `[0-9a-fA-F]`. -/
def isHexChar (c : Char) : Bool :=
  (48 ≤ c.toNat && c.toNat ≤ 57) || (97 ≤ c.toNat && c.toNat ≤ 102) ||
  (65 ≤ c.toNat && c.toNat ≤ 70)

/-- Match of `OK\s+([0-9a-fA-F]\x7b64\x7d)` anchored at the head of the list,
returning the captured 64 hex characters. -/
def matchOKAt : List Char → Option String
  | 'O' :: 'K' :: rest =>
      let ws := rest.takeWhile isJsWhitespace
      let after := rest.dropWhile isJsWhitespace
      if ws.isEmpty then none
      else
        let hex := after.take 64
        if hex.length = 64 && hex.all isHexChar then some (String.mk hex)
        else none
  | _ => none

/-- Left-to-right unanchored search for the pattern, like `String.match`. -/
def matchOKHashChars : List Char → Option String
  | [] => none
  | c :: rest =>
      match matchOKAt (c :: rest) with
      | some h => some h
      | none => matchOKHashChars rest

/-- Embedding of `text.match(/OK\s+([0-9a-fA-F]\x7b64\x7d)/)`:
the first capture when the pattern occurs in `s`. -/
def matchOKHash (s : String) : Option String :=
  matchOKHashChars s.data

/-- Result record of `sendTransaction`. -/
structure SendRes where
  success : Bool
  hash : Option String
  error : Option String
  deriving Repr, DecidableEq

/-- The two fields of a parsed `/send-tx` JSON body that the code reads. -/
structure ParsedBody where
  status : Option String
  tx_hash : Option String
  deriving Repr, DecidableEq

/-- Outcome of the `/send-tx` round trip as `sendTransaction` observes it:
a thrown fetch error, or a response with its `ok` flag and body text. -/
inductive SendNetOutcome where
  | threw (msg : String)
  | resp (ok : Bool) (text : String)
  deriving Repr, DecidableEq

/-- Embedding of `sendTransaction` (src/src/utils/api.ts lines 291-327).
`parse` stands for `JSON.parse` restricted to the two fields read
(`none` meaning the parse throws). -/
def sendTransaction (parse : String → Option ParsedBody)
    (o : SendNetOutcome) : SendRes :=
  match o with
  | .threw m => ⟨false, none, some m⟩
  | .resp ok text =>
      if ok then
        match parse text with
        | some d =>
            if d.status = some "accepted" then ⟨true, d.tx_hash, none⟩
            else ⟨true, some text, none⟩
        | none =>
            match matchOKHash text with
            | some h => ⟨true, some h, none⟩
            | none => ⟨true, some text, none⟩
      else ⟨false, none, some text⟩

/-- Claim C7 as stated, instantiated at one observed outcome: success exactly
for a 2xx accepted-JSON or OK-hash body, failure carrying the body otherwise. -/
def specSendClaim (parse : String → Option ParsedBody)
    (o : SendNetOutcome) : Prop :=
  let r := sendTransaction parse o
  match o with
  | .threw _ => r.success = false
  | .resp ok text =>
      (r.success = true ↔
        ok = true ∧
          ((match parse text with
            | some d => d.status = some "accepted"
            | none => False) ∨ (matchOKHash text).isSome = true)) ∧
      (r.success = false → r.error = some text)

/-- A `JSON.parse` model for bodies that are not valid JSON. -/
def noParse : String → Option ParsedBody := fun _ => none

/-- One recipient row of the MultiSend form (address, optional resolved
domain address, amount input string, optional message). -/
structure Recipient where
  address : String
  resolvedAddress : String
  amount : String
  message : Option String
  deriving Repr, DecidableEq

/-- `recipient.resolvedAddress || recipient.address` (string truthiness). -/
def finalRecipientAddress (r : Recipient) : String :=
  if r.resolvedAddress = "" then r.address else r.resolvedAddress

/-- The filter producing `validRecipients`:
`(r.resolvedAddress || r.address) && Number(r.amount) > 0`;
`toNumber` is JS `Number()` with `none` for NaN. -/
def validRecipientsOf (toNumber : String → Option Rat)
    (recipients : List Recipient) : List Recipient :=
  recipients.filter (fun r =>
    (!(r.resolvedAddress = "" && r.address = "")) &&
      (match toNumber r.amount with
       | some q => decide (0 < q)
       | none => false))

/-- The batch slicing of `handleSendMultiple`: consecutive slices of
`batchSize = 5` in input order. -/
def chunk5 {β : Type} : List β → List (List β)
  | [] => []
  | [a] => [[a]]
  | [a, b] => [[a, b]]
  | [a, b, c] => [[a, b, c]]
  | [a, b, c, d] => [[a, b, c, d]]
  | a :: b :: c :: d :: e :: rest => [a, b, c, d, e] :: chunk5 rest

/-- The one-step unfolding of `chunk5` matching the for-loop slicing. -/
theorem chunk5_cons {β : Type} (a : β) (rest : List β) :
    chunk5 (a :: rest) = (a :: rest.take 4) :: chunk5 (rest.drop 4) := by
  match rest with
  | [] => rfl
  | [b] => rfl
  | [b, c] => rfl
  | [b, c, d] => rfl
  | b :: c :: d :: e :: tail => rfl

/-- Map with an explicit running index (the for-loop counter). -/
def mapWithIdx {α β : Type} (g : Nat → β → α) : Nat → List β → List α
  | _, [] => []
  | i, r :: rest => g i r :: mapWithIdx g (i + 1) rest

/-- Processing of the batch list with the global transaction index
`txIndex = batchIdx * 5 + i` exactly as the nested loops compute it. -/
def chunkRun {α β : Type} (g : Nat → β → α) :
    List (List β) → Nat → List α
  | [], _ => []
  | batch :: rest, batchIdx =>
      mapWithIdx (fun i r => g (batchIdx * 5 + i) r) 0 batch ++
        chunkRun g rest (batchIdx + 1)

/-- Everything `handleSendMultiple` passes to `createTransaction` besides the
per-recipient data: the wallet, the external primitives, and the time and
randomness observed at the k-th `createTransaction` call. -/
structure MultiSendEnv where
  p : SignPrims
  b64dec : String → List Nat
  hexdec : String → List Nat
  numToStr : Rat → String
  time : Nat → Rat × Rat
  toNumber : String → Option Rat
  walletAddress : String
  privateKey : String
  publicKey : String

/-- The transaction `handleSendMultiple` builds for the recipient at global
index `txIndex`: nonce `currentNonce + 1 + txIndex`
(WelcomeScreen.tsx lines 264-278).  For a valid recipient the amount parse
is `some`, so the NaN default of `getD` is never taken. -/
def multiSendTxAt (env : MultiSendEnv) (currentNonce : Rat)
    (txIndex : Nat) (r : Recipient) : TxRecord :=
  createTransaction env.p env.b64dec env.hexdec env.numToStr
    (env.time txIndex).1 (env.time txIndex).2
    env.walletAddress (finalRecipientAddress r)
    ((env.toNumber r.amount).getD 0) (currentNonce + 1 + (txIndex : Rat))
    env.privateKey env.publicKey
    (match r.message with
     | some m => if m = "" then none else some m
     | none => none)

/-- The list of transactions built and signed by `handleSendMultiple`,
in submission order (batches of 5, global index `batchIdx * 5 + i`). -/
def multiSendTxs (env : MultiSendEnv) (currentNonce : Rat)
    (validRecipients : List Recipient) : List TxRecord :=
  chunkRun (multiSendTxAt env currentNonce) (chunk5 validRecipients) 0

/-- One element of the per-item result array of `handleSendMultiple`. -/
structure TxOutcomeEntry where
  success : Bool
  hash : Option String
  error : Option String
  recipient : String
  amount : String
  deriving Repr, DecidableEq

/-- The result entry recorded for the recipient at global index `k`:
the `sendTransaction` outcome of its own submission, tagged with the
recipient address and amount.  The `rejected` branch of the
`Promise.allSettled` loop is unreachable because `sendTransaction`
catches every error and fulfills with a failure record. -/
def multiSendEntryAt (parse : String → Option ParsedBody)
    (sendNet : Nat → SendNetOutcome) (k : Nat) (r : Recipient) :
    TxOutcomeEntry :=
  let res := sendTransaction parse (sendNet k)
  ⟨res.success, res.hash, res.error, r.address, r.amount⟩

/-- The full `transactionResults` array of `handleSendMultiple`:
every batch is processed, results are appended in input order. -/
def multiSendResults (parse : String → Option ParsedBody)
    (sendNet : Nat → SendNetOutcome)
    (validRecipients : List Recipient) : List TxOutcomeEntry :=
  chunkRun (multiSendEntryAt parse sendNet) (chunk5 validRecipients) 0

/-- Raw JSON body of a 2xx `/view_encrypted_balance/` response
(only the fields the code reads; `none` is an absent field). -/
structure EncBody where
  public_balance : Option String
  public_balance_raw : Option String
  encrypted_balance : Option String
  encrypted_balance_raw : Option String
  total_balance : Option String
  deriving Repr, DecidableEq

/-- Outcome of the `/view_encrypted_balance/` round trip. -/
inductive ViewResp where
  | threw (m : String)
  | notOk
  | badJson (m : String)
  | okBody (b : EncBody)
  deriving Repr, DecidableEq

/-- Parsed record returned by `fetchEncryptedBalance`
(interface `EncryptedBalanceResponse`); `none` components are NaN. -/
structure EncryptedBalanceResponse where
  public : Option Rat
  public_raw : Option Rat
  encrypted : Option Rat
  encrypted_raw : Option Rat
  total : Option Rat
  deriving Repr, DecidableEq

/-- `x?.split(' ')[0] || '0'`: first space-separated token, `'0'` when the
field is absent or the token is empty. -/
def firstToken (s : Option String) : String :=
  match s with
  | none => "0"
  | some s =>
      let t := (s.splitOn " ").headD ""
      if t = "" then "0" else t

/-- `x || '0'` on an optional JSON string field. -/
def orZero (s : Option String) : String :=
  match s with
  | none => "0"
  | some s => if s = "" then "0" else s

/-- Embedding of `fetchEncryptedBalance` (src/src/utils/api.ts lines 61-86):
`null` on any failure, otherwise the parsed record. -/
def fetchEncryptedBalance (pf pint : String → Option Rat) (vr : ViewResp) :
    Option EncryptedBalanceResponse :=
  match vr with
  | .threw _ => none
  | .notOk => none
  | .badJson _ => none
  | .okBody b =>
      some
        { public := pf (firstToken b.public_balance)
          public_raw := pint (orZero b.public_balance_raw)
          encrypted := pf (firstToken b.encrypted_balance)
          encrypted_raw := pint (orZero b.encrypted_balance_raw)
          total := pf (firstToken b.total_balance) }

/-- The network requests the private-balance operations can attempt. -/
inductive NetReq where
  | viewEncryptedBalance (address : String)
  | encryptPost (address : String) (amountMu : String)
  | decryptPost (address : String) (amountMu : String)
  | addressInfo (address : String)
  | publicKeyReq (address : String)
  | privateTransferPost (fromAddr toAddr : String) (amountMu : String)
  deriving Repr, DecidableEq

/-- Outcome of a POST round trip (`/encrypt_balance`, `/decrypt_balance`,
`/private_transfer`): thrown fetch, non-2xx body text, 2xx with a body that
is not JSON, or 2xx with the fields the code reads. -/
inductive PostOutcome where
  | threw (m : String)
  | fail (text : String)
  | badJson (m : String)
  | okJson (tx_hash : Option String) (ephemeral_key : Option String)
  deriving Repr, DecidableEq

/-- Result record of `encryptBalance` / `decryptBalance`. -/
structure OpResult where
  success : Bool
  tx_hash : Option String
  error : Option String
  deriving Repr, DecidableEq

/-- `Math.floor(amount * 1_000_000)` used by the private-balance operations. -/
def encDecAmountMu (amount : Rat) : Int :=
  (amount * 1000000).floor

/-- JS `a < b` where `a` may be NaN: NaN compares false. -/
def jsLtOpt (a : Option Rat) (b : Int) : Bool :=
  match a with
  | some q => decide (q < (b : Rat))
  | none => false

/-- Embedding of `encryptBalance` (src/src/utils/api.ts lines 88-125).
`encFn` stands for `encryptClientBalance` (defined in utils/crypto.ts).
The second component is the list of requests attempted, in order.
There is no client-side comparison of the amount with the public balance:
after a successful snapshot fetch the POST is always attempted. -/
def encryptBalance (pf pint : String → Option Rat)
    (encFn : Option Rat → String → String)
    (address : String) (amount : Rat) (privateKey : String)
    (vr : ViewResp) (post : PostOutcome) : OpResult × List NetReq :=
  let t0 := [NetReq.viewEncryptedBalance address]
  match fetchEncryptedBalance pf pint vr with
  | none => (⟨false, none, some "Cannot get balance"⟩, t0)
  | some encData =>
      let newEncryptedRaw :=
        encData.encrypted_raw.map (fun q => q + (encDecAmountMu amount : Rat))
      let _encryptedValue := encFn newEncryptedRaw privateKey
      let t1 := t0 ++ [NetReq.encryptPost address (toString (encDecAmountMu amount))]
      match post with
      | .threw m => (⟨false, none, some m⟩, t1)
      | .fail text => (⟨false, none, some text⟩, t1)
      | .badJson m => (⟨false, none, some m⟩, t1)
      | .okJson h _ => (⟨true, h, none⟩, t1)

/-- The value `decryptBalance` re-encrypts when the guard passes:
`currentEncryptedRaw - Math.floor(amount * MU_FACTOR)`. -/
def decryptNewEncryptedRaw (encrypted_raw : Option Rat) (amount : Rat) :
    Option Rat :=
  encrypted_raw.map (fun q => q - (encDecAmountMu amount : Rat))

/-- Embedding of `decryptBalance` (src/src/utils/api.ts lines 127-168):
rejects with "Insufficient encrypted balance" before the POST when
`currentEncryptedRaw < Math.floor(amount * MU_FACTOR)`. -/
def decryptBalance (pf pint : String → Option Rat)
    (encFn : Option Rat → String → String)
    (address : String) (amount : Rat) (privateKey : String)
    (vr : ViewResp) (post : PostOutcome) : OpResult × List NetReq :=
  let t0 := [NetReq.viewEncryptedBalance address]
  match fetchEncryptedBalance pf pint vr with
  | none => (⟨false, none, some "Cannot get balance"⟩, t0)
  | some encData =>
      if jsLtOpt encData.encrypted_raw (encDecAmountMu amount) then
        (⟨false, none, some "Insufficient encrypted balance"⟩, t0)
      else
        let newEncryptedRaw := decryptNewEncryptedRaw encData.encrypted_raw amount
        let _encryptedValue := encFn newEncryptedRaw privateKey
        let t1 := t0 ++ [NetReq.decryptPost address (toString (encDecAmountMu amount))]
        match post with
        | .threw m => (⟨false, none, some m⟩, t1)
        | .fail text => (⟨false, none, some text⟩, t1)
        | .badJson m => (⟨false, none, some m⟩, t1)
        | .okJson h _ => (⟨true, h, none⟩, t1)

/-- The one field of `/address/{address}` that `createPrivateTransfer` reads. -/
structure AddrInfoResp where
  has_public_key : Bool
  deriving Repr, DecidableEq

/-- Result record of `createPrivateTransfer`. -/
structure PrivateTransferResult where
  success : Bool
  tx_hash : Option String
  ephemeral_key : Option String
  error : Option String
  deriving Repr, DecidableEq

/-- Embedding of `createPrivateTransfer` (src/src/utils/api.ts lines 197-239).
`addrInfo` is the `getAddressInfo` result (`none` for any failed fetch),
`pubKey` the `getPublicKey` result.  The second component is the list of
requests attempted, in order. -/
def createPrivateTransfer (fromAddress toAddress : String) (amount : Rat)
    (addrInfo : Option AddrInfoResp) (pubKey : Option String)
    (post : PostOutcome) : PrivateTransferResult × List NetReq :=
  let t0 := [NetReq.addressInfo toAddress]
  match addrInfo with
  | none => (⟨false, none, none, some "Recipient has no public key"⟩, t0)
  | some info =>
      if !info.has_public_key then
        (⟨false, none, none, some "Recipient has no public key"⟩, t0)
      else
        let t1 := t0 ++ [NetReq.publicKeyReq toAddress]
        match pubKey with
        | none => (⟨false, none, none, some "Cannot get recipient public key"⟩, t1)
        | some _ =>
            let t2 := t1 ++ [NetReq.privateTransferPost fromAddress toAddress
              (toString (encDecAmountMu amount))]
            match post with
            | .threw m => (⟨false, none, none, some m⟩, t2)
            | .fail text => (⟨false, none, none, some text⟩, t2)
            | .badJson m => (⟨false, none, none, some m⟩, t2)
            | .okJson h ek => (⟨true, h, ek, none⟩, t2)

/-- JS `String.prototype.trim`: strip whitespace from both ends. -/
def jsTrim (s : String) : String :=
  String.mk (((s.data.dropWhile isJsWhitespace).reverse.dropWhile
    isJsWhitespace).reverse)

/-- JS `String.prototype.startsWith`. -/
def jsStartsWith (s p : String) : Bool :=
  p.data.isPrefixOf s.data

/-- JS `String.prototype.slice(n)`: the string without its first n
characters. -/
def jsSlice (s : String) (n : Nat) : String :=
  String.mk (s.data.drop n)

/-- Wallet record returned by the import functions. -/
structure WalletRec where
  address : String
  privateKey : String
  publicKey : String
  deriving Repr, DecidableEq

/-- The shared tail of `importWalletFromPrivateKey`: derive the key pair and
address from the 32-byte buffer; any throw inside this try block is replaced
by "Failed to create wallet from private key".  `fromSeedPub` stands for
`nacl.sign.keyPair.fromSeed(..).publicKey` and `createAddr` for
`createOctraAddress` (utils/crypto.ts), `none` meaning the call throws. -/
def importKeyBuffer (fromSeedPub : List Nat → Option (List Nat))
    (createAddr : List Nat → Option String)
    (b64enc hexenc : List Nat → String)
    (keyBuffer : List Nat) : Except String WalletRec :=
  match fromSeedPub keyBuffer with
  | none => .error "Failed to create wallet from private key"
  | some publicKey =>
      match createAddr publicKey with
      | none => .error "Failed to create wallet from private key"
      | some address => .ok ⟨address, b64enc keyBuffer, hexenc publicKey⟩

/-- Embedding of `importWalletFromPrivateKey`
(src/src/utils/wallet.ts lines 17-56).  `Except.error` models a thrown
exception escaping the function.  In the base64 branch the length throw is
swallowed by the surrounding try and replaced by the format error. -/
def importWalletFromPrivateKey (hexdec b64dec : String → List Nat)
    (fromSeedPub : List Nat → Option (List Nat))
    (createAddr : List Nat → Option String)
    (b64enc hexenc : List Nat → String)
    (privateKey : String) : Except String WalletRec :=
  let cleanKey := jsTrim privateKey
  if jsStartsWith cleanKey "0x" then
    let ck := jsSlice cleanKey 2
    if ck.length ≠ 64 then .error "Invalid private key length"
    else importKeyBuffer fromSeedPub createAddr b64enc hexenc (hexdec ck)
  else
    let keyBuffer := b64dec cleanKey
    if keyBuffer.length ≠ 32 then .error "Invalid private key format"
    else importKeyBuffer fromSeedPub createAddr b64enc hexenc keyBuffer

theorem mapWithIdx_length {α β : Type} (g : Nat → β → α) (s : Nat)
    (l : List β) : (mapWithIdx g s l).length = l.length := by
  induction l generalizing s with
  | nil => rfl
  | cons a rest ih => simp [mapWithIdx, ih]

theorem mapWithIdx_append {α β : Type} (g : Nat → β → α) (s : Nat)
    (l1 l2 : List β) :
    mapWithIdx g s (l1 ++ l2) =
      mapWithIdx g s l1 ++ mapWithIdx g (s + l1.length) l2 := by
  induction l1 generalizing s with
  | nil => simp [mapWithIdx]
  | cons a rest ih =>
      simp only [List.cons_append, List.append_eq, mapWithIdx, List.length_cons]
      rw [show s + (rest.length + 1) = s + 1 + rest.length from by omega]
      rw [ih]

theorem mapWithIdx_shift {α β : Type} (g : Nat → β → α) (s t : Nat)
    (l : List β) :
    mapWithIdx (fun i r => g (s + i) r) t l = mapWithIdx g (s + t) l := by
  induction l generalizing t with
  | nil => rfl
  | cons a rest ih =>
      simp only [mapWithIdx, ih]
      rfl

theorem mapWithIdx_getElem? {α β : Type} (g : Nat → β → α) (s : Nat)
    (l : List β) (k : Nat) :
    (mapWithIdx g s l)[k]? = l[k]?.map (g (s + k)) := by
  induction l generalizing s k with
  | nil => simp [mapWithIdx]
  | cons a rest ih =>
      cases k with
      | zero => simp [mapWithIdx]
      | succ k =>
          simp only [mapWithIdx, List.getElem?_cons_succ, ih]
          rw [show s + (k + 1) = s + 1 + k from by omega]

theorem chunk5_nil_iff {β : Type} (l : List β) : chunk5 l = [] ↔ l = [] := by
  cases l with
  | nil => simp [chunk5]
  | cons a rest => simp [chunk5_cons]

theorem chunkRun_chunk5_aux {α β : Type} (g : Nat → β → α) :
    ∀ (n : Nat) (l : List β), l.length ≤ n → ∀ b,
      chunkRun g (chunk5 l) b = mapWithIdx g (b * 5) l := by
  intro n
  induction n with
  | zero =>
      intro l h b
      have hl : l = [] := List.eq_nil_of_length_eq_zero (by omega)
      subst hl
      simp [chunk5, chunkRun, mapWithIdx]
  | succ n ih =>
      intro l h b
      cases l with
      | nil => simp [chunk5, chunkRun, mapWithIdx]
      | cons a rest =>
          have hrest : rest.length ≤ n := by
            simp [List.length_cons] at h; omega
          have hdrop : (rest.drop 4).length ≤ n := by
            simp [List.length_drop]; omega
          rw [chunk5_cons]
          simp only [chunkRun]
          rw [ih (rest.drop 4) hdrop (b + 1)]
          rw [mapWithIdx_shift]
          have hsplit : rest = rest.take 4 ++ rest.drop 4 :=
            (List.take_append_drop 4 rest).symm
          conv_rhs => rw [hsplit]
          show mapWithIdx g (b * 5 + 0) (a :: rest.take 4) ++
              mapWithIdx g ((b + 1) * 5) (rest.drop 4) = _
          simp only [mapWithIdx, mapWithIdx_append, List.cons_append]
          by_cases h4 : 4 ≤ rest.length
          · have ht : (rest.take 4).length = 4 := by
              simp [List.length_take]; omega
            rw [ht, show b * 5 + 0 + 1 + 4 = (b + 1) * 5 from by omega]
            simp
          · have hd : rest.drop 4 = [] :=
              List.drop_eq_nil_of_le (by omega)
            rw [hd]
            simp [mapWithIdx]

theorem chunkRun_chunk5 {α β : Type} (g : Nat → β → α) (l : List β)
    (b : Nat) : chunkRun g (chunk5 l) b = mapWithIdx g (b * 5) l :=
  chunkRun_chunk5_aux g l.length l (Nat.le_refl _) b

theorem chunk5_flatten_aux {β : Type} :
    ∀ (n : Nat) (l : List β), l.length ≤ n → (chunk5 l).flatten = l := by
  intro n
  induction n with
  | zero =>
      intro l h
      have hl : l = [] := List.eq_nil_of_length_eq_zero (by omega)
      subst hl
      simp [chunk5]
  | succ n ih =>
      intro l h
      cases l with
      | nil => simp [chunk5]
      | cons a rest =>
          have hdrop : (rest.drop 4).length ≤ n := by
            simp only [List.length_cons] at h
            simp [List.length_drop]; omega
          rw [chunk5_cons]
          rw [List.flatten_cons]
          rw [ih (rest.drop 4) hdrop]
          simp [List.take_append_drop]

theorem chunk5_flatten {β : Type} (l : List β) : (chunk5 l).flatten = l :=
  chunk5_flatten_aux l.length l (Nat.le_refl _)

theorem chunk5_batches_aux {β : Type} :
    ∀ (n : Nat) (l : List β), l.length ≤ n →
      ∀ batch ∈ chunk5 l, batch ≠ [] ∧ batch.length ≤ 5 := by
  intro n
  induction n with
  | zero =>
      intro l h
      have hl : l = [] := List.eq_nil_of_length_eq_zero (by omega)
      subst hl
      simp [chunk5]
  | succ n ih =>
      intro l h batch hb
      cases l with
      | nil => simp [chunk5] at hb
      | cons a rest =>
          have hdrop : (rest.drop 4).length ≤ n := by
            simp only [List.length_cons] at h
            simp [List.length_drop]; omega
          rw [chunk5_cons] at hb
          rcases List.mem_cons.mp hb with hhead | htail
          · subst hhead
            refine ⟨by simp, ?_⟩
            have := List.length_take_le 4 rest
            simp only [List.length_cons]
            omega
          · exact ih (rest.drop 4) hdrop batch htail

theorem chunk5_batches {β : Type} (l : List β) :
    ∀ batch ∈ chunk5 l, batch ≠ [] ∧ batch.length ≤ 5 :=
  chunk5_batches_aux l.length l (Nat.le_refl _)

theorem chunk5_getElem?_aux {β : Type} :
    ∀ (n : Nat) (l : List β), l.length ≤ n → ∀ b,
      (chunk5 l)[b]? =
        if l.length ≤ 5 * b then none
        else some ((l.drop (5 * b)).take 5) := by
  intro n
  induction n with
  | zero =>
      intro l h b
      have hl : l = [] := List.eq_nil_of_length_eq_zero (by omega)
      subst hl
      simp [chunk5]
  | succ n ih =>
      intro l h b
      cases l with
      | nil => simp [chunk5]
      | cons a rest =>
          have hdrop : (rest.drop 4).length ≤ n := by
            simp only [List.length_cons] at h
            simp [List.length_drop]; omega
          rw [chunk5_cons]
          cases b with
          | zero =>
              simp only [Nat.mul_zero, List.drop_zero, List.getElem?_cons_zero]
              rw [if_neg (by simp)]
              rw [show (5 : Nat) = 4 + 1 from rfl, List.take_succ_cons]
          | succ b =>
              simp only [List.getElem?_cons_succ]
              rw [ih (rest.drop 4) hdrop b]
              by_cases hc : rest.length ≤ 5 * b + 4
              · rw [if_pos (by simp [List.length_drop]; omega),
                  if_pos (by simp; omega)]
              · rw [if_neg (by simp [List.length_drop]; omega),
                  if_neg (by simp; omega)]
                rw [List.drop_drop]
                rw [show 5 * (b + 1) = (4 + 5 * b) + 1 from by omega]
                rw [List.drop_succ_cons]

theorem chunk5_getElem? {β : Type} (l : List β) (b : Nat) :
    (chunk5 l)[b]? =
      if l.length ≤ 5 * b then none
      else some ((l.drop (5 * b)).take 5) :=
  chunk5_getElem?_aux l.length l (Nat.le_refl _) b

theorem chunk5_flat_getElem? {β : Type} (l : List β) (b i : Nat)
    (hi : i < 5) :
    ((chunk5 l)[b]?.bind fun batch => batch[i]?) = l[5 * b + i]? := by
  rw [chunk5_getElem?]
  by_cases hd : l.length ≤ 5 * b
  · rw [if_pos hd]
    rw [List.getElem?_eq_none (by omega)]
    rfl
  · rw [if_neg hd]
    show ((l.drop (5 * b)).take 5)[i]? = l[5 * b + i]?
    rw [List.getElem?_take, if_pos hi, List.getElem?_drop]

theorem chunk5_full_batches {β : Type} (l : List β) (b : Nat)
    (h : b + 1 < (chunk5 l).length) :
    ∃ batch, (chunk5 l)[b]? = some batch ∧ batch.length = 5 := by
  obtain ⟨x, hx⟩ : ∃ x, (chunk5 l)[b + 1]? = some x :=
    ⟨(chunk5 l)[b + 1], List.getElem?_eq_getElem h⟩
  rw [chunk5_getElem?] at hx
  by_cases hd : l.length ≤ 5 * (b + 1)
  · rw [if_pos hd] at hx
    cases hx
  · refine ⟨(l.drop (5 * b)).take 5, ?_, ?_⟩
    · rw [chunk5_getElem?, if_neg (by omega)]
    · rw [List.length_take, List.length_drop]
      omega

/-!
Claim theorems.
-/

/-- The nonce values of the staged transactions whose `from` equals the
address, as the code parses them (`parseInt(tx.nonce) || 0`). -/
def pendingNonces (pint : String → Option Rat) (address : String)
    (staged : List StagedTx) : List Rat :=
  (staged.filter (fun tx => tx.from_ = address)).map
    (fun tx => (pint tx.nonce).getD 0)

/-- The nonce formula of claim C1:
`max(confirmedCount, maximum of the pending nonces, 0 when none) + 1`. -/
def claimNextNonce (c : Rat) (pending : List Rat) : Rat :=
  max c (if pending = [] then 0 else jsMaxList pending) + 1

/-- Claim C1: with a 2xx balance body carrying confirmed count `c` and a 2xx
staging body, `fetchBalance` returns nonce
`max(c, max of the address's own staged nonces)`, and the first transaction
of the send cycle (`handleSendMultiple` at global index 0) is assigned
that value plus one, i.e. `max(c, maxPendingNonce or 0) + 1`. -/
theorem nextNonce_rule (pf pint : String → Option Rat) (env : MultiSendEnv)
    (address : String) (bf : BalField) (c : Rat) (staged : List StagedTx)
    (b : Rat) (r : Recipient) (recips : List Recipient)
    (hc : 0 ≤ c) (hbal : parsedBalance pf bf = some b) :
    fetchBalance pf pint address (.okBody ⟨bf, some c⟩) (.okBody (some staged))
      = .ok ⟨b, fetchBalanceNonce pint address ⟨bf, some c⟩ (.okBody (some staged))⟩ ∧
    fetchBalanceNonce pint address ⟨bf, some c⟩ (.okBody (some staged)) + 1
      = claimNextNonce c (pendingNonces pint address staged) ∧
    (multiSendTxs env
        (fetchBalanceNonce pint address ⟨bf, some c⟩ (.okBody (some staged)))
        (r :: recips))[0]?.map TxRecord.nonce
      = some (claimNextNonce c (pendingNonces pint address staged)) := by
  have hnonce :
      fetchBalanceNonce pint address ⟨bf, some c⟩ (.okBody (some staged)) + 1
        = claimNextNonce c (pendingNonces pint address staged) := by
    unfold fetchBalanceNonce claimNextNonce pendingNonces
    simp only [Option.getD_some]
    by_cases he : (staged.filter (fun tx => tx.from_ = address)).isEmpty
    · rw [if_pos he]
      have hnil : staged.filter (fun tx => tx.from_ = address) = [] :=
        List.isEmpty_iff.mp he
      rw [hnil]
      simp [max_eq_left hc]
    · rw [if_neg he]
      have hne : staged.filter (fun tx => tx.from_ = address) ≠ [] := by
        intro hx
        rw [hx] at he
        exact he rfl
      rw [if_neg (by simpa using hne)]
  refine ⟨?_, hnonce, ?_⟩
  · simp [fetchBalance, hbal]
  · rw [show multiSendTxs env
        (fetchBalanceNonce pint address ⟨bf, some c⟩ (.okBody (some staged)))
        (r :: recips) = mapWithIdx (multiSendTxAt env
          (fetchBalanceNonce pint address ⟨bf, some c⟩ (.okBody (some staged))))
        0 (r :: recips) from by
      have := chunkRun_chunk5 (multiSendTxAt env
        (fetchBalanceNonce pint address ⟨bf, some c⟩ (.okBody (some staged))))
        (r :: recips) 0
      simpa [multiSendTxs] using this]
    simp only [mapWithIdx, List.getElem?_cons_zero, Option.map_some]
    rw [← hnonce]
    unfold multiSendTxAt createTransaction
    simp

/-- Concrete signing primitives used by the witnesses: the signature is the
public half of the secret key followed by the message, verification checks
exactly that shape, so the Ed25519 contract hypothesis holds. -/
def trivialPrims : SignPrims :=
  { sign := fun m sk => sk.drop 32 ++ m
    verify := fun sig m pk => decide (sig = pk ++ m)
    b64encode := fun l => toString l }

/-- Concrete environment used by the witnesses. -/
def envW : MultiSendEnv :=
  { p := trivialPrims
    b64dec := fun _ => List.replicate 32 0
    hexdec := fun _ => List.replicate 32 1
    numToStr := fun q => toString q.num
    time := fun _ => (0, 0)
    toNumber := fun _ => some 1
    walletAddress := "addr"
    privateKey := "k"
    publicKey := "p" }

/-- Concrete `parseFloat` used by the witnesses. -/
def pfW : String → Option Rat := fun _ => some 0

/-- Concrete `parseInt` used by the witnesses. -/
def pintW : String → Option Rat := fun s =>
  if s = "6" then some 6 else if s = "7" then some 7 else none

/-- Concrete recipient row used by the witnesses. -/
def recipW : Recipient := ⟨"r1", "", "1", none⟩

/-- Witness for C1, instantiating the spec examples: confirmedCount 5 with
own pending nonces 6 and 7 gives next nonce 8; confirmedCount 5 with no
pending transactions gives next nonce 6. -/
theorem nextNonce_rule_witness :
    fetchBalanceNonce pintW "addr" ⟨.num 0, some 5⟩
        (.okBody (some [⟨"addr", "6"⟩, ⟨"addr", "7"⟩])) + 1 = 8 ∧
    fetchBalanceNonce pintW "addr" ⟨.num 0, some 5⟩
        (.okBody (some [])) + 1 = 6 := by
  have h1 := (nextNonce_rule pfW pintW envW "addr" (.num 0) 5
    [⟨"addr", "6"⟩, ⟨"addr", "7"⟩] 0 recipW [] (by norm_num) rfl).2.1
  have h2 := (nextNonce_rule pfW pintW envW "addr" (.num 0) 5
    [] 0 recipW [] (by norm_num) rfl).2.1
  constructor
  · rw [h1]
    show max 5 (if ([6, 7] : List Rat) = [] then 0 else jsMaxList [6, 7]) + 1 = 8
    rw [if_neg (by simp : ¬([6, 7] : List Rat) = [])]
    norm_num [jsMaxList, List.foldl, max_def]
  · rw [h2]
    show max 5 (if ([] : List Rat) = [] then 0 else jsMaxList []) + 1 = 6
    norm_num

/-- Claim C8: a failure of the confirmed-count read (rejected fetch, non-2xx
response, or unparseable body) fails the whole `fetchBalance` call, while a
failed or unparseable best-effort staging read is not fatal: the call still
succeeds and the returned nonce is the confirmed count alone. -/
theorem fetchBalance_error_and_degrade (pf pint : String → Option Rat)
    (address msg : String) (status : Nat) (st : StagingOutcome)
    (body : BalanceBody) (c b : Rat)
    (hst : st = .netFail ∨ st = .notOk ∨ st = .badJson)
    (hn : body.nonce = some c)
    (hb : parsedBalance pf body.balance = some b) :
    fetchBalance pf pint address (.netFail msg) st = .error msg ∧
    fetchBalance pf pint address (.notOk status) st
      = .error ("Error " ++ toString status) ∧
    fetchBalance pf pint address (.badJson msg) st = .error msg ∧
    fetchBalance pf pint address (.okBody body) st = .ok ⟨b, c⟩ := by
  refine ⟨rfl, rfl, rfl, ?_⟩
  rcases hst with h | h | h <;> subst h <;>
    simp [fetchBalance, fetchBalanceNonce, hb, hn]

/-- Witness for C8 at a concrete failing staging read and a concrete failing
balance read. -/
theorem fetchBalance_error_and_degrade_witness :
    fetchBalance pfW pintW "addr" (.okBody ⟨.num 0, some 5⟩) .netFail
      = .ok ⟨0, 5⟩ ∧
    fetchBalance pfW pintW "addr" (.netFail "boom") .netFail
      = .error "boom" :=
  ⟨(fetchBalance_error_and_degrade pfW pintW "addr" "boom" 500 .netFail
      ⟨.num 0, some 5⟩ 5 0 (Or.inl rfl) rfl rfl).2.2.2,
   (fetchBalance_error_and_degrade pfW pintW "addr" "boom" 500 .netFail
      ⟨.num 0, some 5⟩ 5 0 (Or.inl rfl) rfl rfl).1⟩

/-- Claim C10: a 2xx `/balance` response whose balance field is a string
that does not parse as a number (NaN) makes `fetchBalance` return the
successful result with balance 0 and nonce 0, whatever the staging data
said. -/
theorem fetchBalance_nan_result (pf pint : String → Option Rat)
    (address s : String) (nonceField : Option Rat) (st : StagingOutcome)
    (hs : pf s = none) :
    fetchBalance pf pint address (.okBody ⟨.str s, nonceField⟩) st
      = .ok ⟨0, 0⟩ := by
  simp [fetchBalance, parsedBalance, hs]

/-- A `parseFloat` returning NaN on every input, for the C10 witness. -/
def pfNaN : String → Option Rat := fun _ => none

/-- Witness for C10: a malformed balance string with confirmed count 5 and
pending nonces still yields the successful result `(0, 0)`. -/
theorem fetchBalance_nan_result_witness :
    fetchBalance pfNaN pintW "addr"
      (.okBody ⟨.str "bogus", some 5⟩)
      (.okBody (some [⟨"addr", "7"⟩])) = .ok ⟨0, 0⟩ :=
  fetchBalance_nan_result pfNaN pintW "addr" "bogus" (some 5)
    (.okBody (some [⟨"addr", "7"⟩])) rfl

theorem naclSecretKey_eq (priv pub : List Nat)
    (hpriv : priv.length = 32) (hpub : pub.length = 32) :
    naclSecretKey priv pub = priv ++ pub := by
  unfold naclSecretKey uint8set
  rw [List.take_zero, List.nil_append, hpriv, hpub]
  rw [show (0 + 32 : Nat) = 32 from by omega, List.drop_replicate]
  rw [show (64 - 32 : Nat) = 32 from by omega]
  have htake : (priv ++ List.replicate 32 (0 : Nat)).take 32 = priv := by
    conv_lhs => rw [show (32 : Nat) = priv.length from hpriv.symm]
    exact List.take_left priv _
  have hdrop : (priv ++ List.replicate 32 (0 : Nat)).drop (32 + 32) = [] := by
    apply List.drop_eq_nil_of_le
    rw [List.length_append, hpriv, List.length_replicate]
  rw [htake, hdrop, List.append_nil]

/-- Claim C2 (amended): the Ed25519 signature of every transaction built by
`createTransaction` is computed over the compact JSON of exactly the six
fields `from, to_, amount, nonce, ou, timestamp` in that key order — the
recipient is serialized under the wire key `to_`, not `to` — with message,
signature and public key excluded, using the 64-byte secret key that is the
32-byte decoded seed concatenated with the 32-byte decoded public key; under
the Ed25519 library contract (`hEd`) the signature verifies against the
attached public key. -/
theorem createTransaction_signing (p : SignPrims)
    (b64dec hexdec : String → List Nat) (numToStr : Rat → String)
    (nowMs rand : Rat) (sender recipient : String) (amount nonce : Rat)
    (privB64 pubHex : String) (message : Option String)
    (hEd : ∀ m sk, sk.length = 64 →
      p.verify (p.sign m sk) m (sk.drop 32) = true)
    (hpriv : (b64dec privB64).length = 32)
    (hpub : (hexdec pubHex).length = 32) :
    createTxSigningData numToStr nowMs rand sender recipient amount nonce
      = txSigningData numToStr sender recipient (amountMuStr amount) nonce
          (ouTag amount) (txTimestamp nowMs rand) ∧
    naclSecretKey (b64dec privB64) (hexdec pubHex)
      = b64dec privB64 ++ hexdec pubHex ∧
    (createTransaction p b64dec hexdec numToStr nowMs rand sender recipient
        amount nonce privB64 pubHex message).signature
      = some (p.b64encode (p.sign
          (utf8Bytes (createTxSigningData numToStr nowMs rand sender
            recipient amount nonce))
          (b64dec privB64 ++ hexdec pubHex))) ∧
    (createTransaction p b64dec hexdec numToStr nowMs rand sender recipient
        amount nonce privB64 pubHex message).public_key
      = some (p.b64encode (hexdec pubHex)) ∧
    p.verify
      (p.sign (utf8Bytes (createTxSigningData numToStr nowMs rand sender
        recipient amount nonce)) (b64dec privB64 ++ hexdec pubHex))
      (utf8Bytes (createTxSigningData numToStr nowMs rand sender recipient
        amount nonce))
      (hexdec pubHex) = true := by
  have hkey := naclSecretKey_eq (b64dec privB64) (hexdec pubHex) hpriv hpub
  refine ⟨rfl, hkey, ?_, ?_, ?_⟩
  · simp only [createTransaction]
    rw [hkey]
  · simp only [createTransaction]
  · have hlen : (b64dec privB64 ++ hexdec pubHex).length = 64 := by
      rw [List.length_append, hpriv, hpub]
    have hdrop : (b64dec privB64 ++ hexdec pubHex).drop 32 = hexdec pubHex := by
      conv_lhs => rw [show (32 : Nat) = (b64dec privB64).length from hpriv.symm]
      exact List.drop_left _ _
    have := hEd (utf8Bytes (createTxSigningData numToStr nowMs rand sender
      recipient amount nonce)) (b64dec privB64 ++ hexdec pubHex) hlen
    rwa [hdrop] at this

/-- Concrete base64 decoder for witnesses: a constant 32-byte buffer. -/
def b64decW : String → List Nat := fun _ => List.replicate 32 0

/-- Concrete hex decoder for witnesses: a constant 32-byte buffer. -/
def hexdecW : String → List Nat := fun _ => List.replicate 32 1

/-- Concrete JS number formatting for witnesses. -/
def numToStrW : Rat → String := fun _ => "0"

/-- Witness for C2 at a concrete transaction: the produced signature
verifies against the decoded public key under the library contract. -/
theorem createTransaction_signing_witness :
    trivialPrims.verify
      (trivialPrims.sign
        (utf8Bytes (createTxSigningData numToStrW 0 0 "a" "b" 1 1))
        (b64decW "k" ++ hexdecW "p"))
      (utf8Bytes (createTxSigningData numToStrW 0 0 "a" "b" 1 1))
      (hexdecW "p") = true :=
  (createTransaction_signing trivialPrims b64decW hexdecW numToStrW 0 0
    "a" "b" 1 1 "k" "p" none
    (by intro m sk h; simp [trivialPrims])
    (by simp [b64decW]) (by simp [hexdecW])).2.2.2.2

/-- Counterexample to C2 as stated: at a concrete input, the payload the
code signs (recipient under the wire key `to_`) is not the compact JSON
keyed `\x7bfrom, to, amount, nonce, ou, timestamp\x7d` that the claim
describes. -/
theorem createTransaction_payload_cex :
    createTxSigningData numToStrW 0 0 "a" "b" 1 1
      ≠ claimedSigningData numToStrW "a" "b" (amountMuStr 1) 1 (ouTag 1)
          (txTimestamp 0 0) := by
  intro h
  have hl := congrArg String.length h
  simp only [createTxSigningData, txSigningData, claimedSigningData,
    String.length_append] at hl
  rw [show (",\"to_\":" : String).length = 7 from rfl,
      show (",\"to\":" : String).length = 6 from rfl] at hl
  omega

theorem multiSendTxs_eq_flat (env : MultiSendEnv) (c : Rat)
    (recips : List Recipient) :
    multiSendTxs env c recips = mapWithIdx (multiSendTxAt env c) 0 recips := by
  unfold multiSendTxs
  simpa using chunkRun_chunk5 (multiSendTxAt env c) recips 0

theorem multiSendTxAt_nonce (env : MultiSendEnv) (c : Rat) (k : Nat)
    (r : Recipient) :
    (multiSendTxAt env c k r).nonce = c + 1 + (k : Rat) := rfl

/-- Claim C3: `handleSendMultiple` splits the valid recipients into
consecutive batches of 5 in input order (the last batch possibly smaller),
and with starting nonce `s = currentNonce + 1` the k-th recipient overall —
the item at batch index `b`, in-batch index `i`, `k = 5*b + i` — is built
with nonce `s + k`, strictly increasing and gap-free, one nonce per
transaction.  The transaction list is a pure function of the inputs with no
submission-outcome parameter, which is the shallow-embedding form of
"every nonce is fixed before the network submissions begin". -/
theorem multiSend_nonce_assignment (env : MultiSendEnv) (c : Rat)
    (recips : List Recipient) :
    (multiSendTxs env c recips).length = recips.length ∧
    (∀ (k : Nat), (multiSendTxs env c recips)[k]?.map TxRecord.nonce
        = recips[k]?.map fun _ => (c + 1) + (k : Rat)) ∧
    (chunk5 recips).flatten = recips ∧
    (∀ batch ∈ chunk5 recips, batch ≠ [] ∧ batch.length ≤ 5) ∧
    (∀ b, b + 1 < (chunk5 recips).length →
        ∃ batch, (chunk5 recips)[b]? = some batch ∧ batch.length = 5) ∧
    (∀ b i, i < 5 →
        ((chunk5 recips)[b]?.bind fun batch => batch[i]?)
          = recips[5 * b + i]?) ∧
    (∀ (k1 k2 : Nat) (t1 t2 : TxRecord), k1 < k2 →
        (multiSendTxs env c recips)[k1]? = some t1 →
        (multiSendTxs env c recips)[k2]? = some t2 →
        t1.nonce < t2.nonce) := by
  have hflat := multiSendTxs_eq_flat env c recips
  have hget : ∀ (k : Nat), (multiSendTxs env c recips)[k]?.map TxRecord.nonce
      = recips[k]?.map fun _ => (c + 1) + (k : Rat) := by
    intro k
    rw [hflat, mapWithIdx_getElem?, Nat.zero_add]
    cases hk : recips[k]? with
    | none => rfl
    | some r =>
        show some (multiSendTxAt env c k r).nonce
          = some ((c + 1) + (k : Rat))
        rw [multiSendTxAt_nonce, add_assoc]
  refine ⟨?_, hget, chunk5_flatten recips, chunk5_batches recips,
    chunk5_full_batches recips, ?_, ?_⟩
  · rw [hflat, mapWithIdx_length]
  · intro b i hi
    exact chunk5_flat_getElem? recips b i hi
  · intro k1 k2 t1 t2 hk h1 h2
    have e1 := hget k1
    rw [h1] at e1
    have e2 := hget k2
    rw [h2] at e2
    cases hr1 : recips[k1]? with
    | none => rw [hr1] at e1; cases e1
    | some r1 =>
        cases hr2 : recips[k2]? with
        | none => rw [hr2] at e2; cases e2
        | some r2 =>
            rw [hr1] at e1
            rw [hr2] at e2
            simp at e1 e2
            rw [e1, e2]
            have : (k1 : Rat) < (k2 : Rat) := by exact_mod_cast hk
            linarith

/-- Witness for C3 at the spec example: 12 recipients with starting nonce 10
(confirmed nonce 9) are split into batches of 5, 5, 2 and get nonces
10 .. 21 in input order. -/
theorem multiSend_nonce_assignment_witness :
    (multiSendTxs envW 9 (List.replicate 12 recipW)).length = 12 ∧
    (multiSendTxs envW 9
      (List.replicate 12 recipW))[0]?.map TxRecord.nonce = some 10 ∧
    (multiSendTxs envW 9
      (List.replicate 12 recipW))[11]?.map TxRecord.nonce = some 21 ∧
    (chunk5 (List.replicate 12 recipW)).map List.length = [5, 5, 2] := by
  have h := multiSend_nonce_assignment envW 9 (List.replicate 12 recipW)
  refine ⟨?_, ?_, ?_, rfl⟩
  · rw [h.1]; rfl
  · rw [h.2.1 0]
    show some ((9 + 1 : Rat) + ((0 : Nat) : Rat)) = some (10 : Rat)
    norm_num
  · rw [h.2.1 11]
    show some ((9 + 1 : Rat) + ((11 : Nat) : Rat)) = some (21 : Rat)
    norm_num

theorem multiSendResults_eq_flat (parse : String → Option ParsedBody)
    (sendNet : Nat → SendNetOutcome) (recips : List Recipient) :
    multiSendResults parse sendNet recips
      = mapWithIdx (multiSendEntryAt parse sendNet) 0 recips := by
  unfold multiSendResults
  simpa using chunkRun_chunk5 (multiSendEntryAt parse sendNet) recips 0

/-- Claim C4: the result list of `handleSendMultiple` has exactly one entry
per valid recipient, in input order; the k-th entry is determined by the
k-th recipient and the outcome of the k-th submission alone, for every
submission-outcome assignment (including ones that fail every item), so a
failure is recorded only in its own entry, cannot alter any other entry,
and every remaining batch is still processed. -/
theorem multiSend_result_isolation (parse : String → Option ParsedBody)
    (sendNet : Nat → SendNetOutcome) (recips : List Recipient) :
    (multiSendResults parse sendNet recips).length = recips.length ∧
    (∀ (k : Nat), (multiSendResults parse sendNet recips)[k]?
        = recips[k]?.map fun r =>
            ⟨(sendTransaction parse (sendNet k)).success,
             (sendTransaction parse (sendNet k)).hash,
             (sendTransaction parse (sendNet k)).error,
             r.address, r.amount⟩) ∧
    (∀ (sendNet2 : Nat → SendNetOutcome) (k : Nat),
        sendNet2 k = sendNet k →
        (multiSendResults parse sendNet2 recips)[k]?
          = (multiSendResults parse sendNet recips)[k]?) := by
  have hget : ∀ (f : Nat → SendNetOutcome) (k : Nat),
      (multiSendResults parse f recips)[k]?
        = recips[k]?.map fun r =>
            ⟨(sendTransaction parse (f k)).success,
             (sendTransaction parse (f k)).hash,
             (sendTransaction parse (f k)).error,
             r.address, r.amount⟩ := by
    intro f k
    rw [multiSendResults_eq_flat, mapWithIdx_getElem?, Nat.zero_add]
    rfl
  refine ⟨?_, hget sendNet, ?_⟩
  · rw [multiSendResults_eq_flat, mapWithIdx_length]
  · intro sendNet2 k hk
    rw [hget sendNet2 k, hget sendNet k, hk]

/-- Second concrete recipient row, for the C4 witness. -/
def recipW2 : Recipient := ⟨"r2", "", "2", none⟩

/-- A concrete `JSON.parse` for the C4 witness: only the body "acc" parses,
to an accepted status with hash h1. -/
def parseW : String → Option ParsedBody := fun s =>
  if s = "acc" then some ⟨some "accepted", some "h1"⟩ else none

/-- A concrete submission-outcome assignment for the C4 witness: item 0
fails with a non-2xx response, every other item succeeds. -/
def sendNetW : Nat → SendNetOutcome := fun k =>
  if k = 0 then .resp false "boom" else .resp true "acc"

/-- Witness for C4: with two recipients where submission 0 fails and
submission 1 succeeds, the result list still has one entry per recipient in
order, the failure is recorded only in entry 0, and entry 1 reports its own
success. -/
theorem multiSend_result_isolation_witness :
    (multiSendResults parseW sendNetW [recipW, recipW2]).length = 2 ∧
    (multiSendResults parseW sendNetW [recipW, recipW2])[0]?
      = some ⟨false, none, some "boom", "r1", "1"⟩ ∧
    (multiSendResults parseW sendNetW [recipW, recipW2])[1]?
      = some ⟨true, some "h1", none, "r2", "2"⟩ := by
  have h := multiSend_result_isolation parseW sendNetW [recipW, recipW2]
  refine ⟨by rw [h.1]; rfl, ?_, ?_⟩
  · rw [h.2.1 0]; rfl
  · rw [h.2.1 1]; rfl

theorem rat_floor_eq_intFloor (q : Rat) : q.floor = ⌊q⌋ := rfl

/-- Claim C5 (amended): `decryptBalance` enforces its bound before the POST —
when the snapshot's `encrypted_raw` is below the requested micro-amount it
fails with "Insufficient encrypted balance" and attempts no
`/decrypt_balance` request, and when the bound holds the re-encoded total
`encrypted_raw - amountMu` is nonnegative; `encryptBalance`, however,
performs no client-side comparison with the public balance: whenever the
snapshot fetch succeeds it attempts the `/encrypt_balance` request, for
every amount. -/
theorem privateBalance_bounds (pf pint : String → Option Rat)
    (encFn : Option Rat → String → String)
    (address privateKey : String) (amount : Rat)
    (vr : ViewResp) (post : PostOutcome) (e : EncryptedBalanceResponse)
    (hv : fetchEncryptedBalance pf pint vr = some e) :
    (∀ er : Rat, e.encrypted_raw = some er →
        er < (encDecAmountMu amount : Rat) →
        decryptBalance pf pint encFn address amount privateKey vr post
          = (⟨false, none, some "Insufficient encrypted balance"⟩,
             [NetReq.viewEncryptedBalance address])) ∧
    (∀ er : Rat, e.encrypted_raw = some er →
        ¬ er < (encDecAmountMu amount : Rat) →
        decryptNewEncryptedRaw e.encrypted_raw amount
            = some (er - (encDecAmountMu amount : Rat)) ∧
        0 ≤ er - (encDecAmountMu amount : Rat) ∧
        (decryptBalance pf pint encFn address amount privateKey vr post).2
          = [NetReq.viewEncryptedBalance address,
             NetReq.decryptPost address (toString (encDecAmountMu amount))]) ∧
    (encryptBalance pf pint encFn address amount privateKey vr post).2
      = [NetReq.viewEncryptedBalance address,
         NetReq.encryptPost address (toString (encDecAmountMu amount))] := by
  refine ⟨?_, ?_, ?_⟩
  · intro er her hlt
    unfold decryptBalance
    rw [hv]
    dsimp only
    rw [her]
    simp only [jsLtOpt]
    rw [if_pos (by exact decide_eq_true hlt)]
  · intro er her hge
    refine ⟨by rw [her]; rfl, by linarith [not_lt.mp hge], ?_⟩
    unfold decryptBalance
    rw [hv]
    dsimp only
    rw [her]
    simp only [jsLtOpt]
    rw [if_neg (by simpa using hge)]
    cases post <;> rfl
  · unfold encryptBalance
    rw [hv]
    dsimp only
    cases post <;> rfl

/-- Concrete `/view_encrypted_balance` body for the C5 instances:
public balance 0, encrypted balance 5 OCT (5000000 micro-units). -/
def vrC5 : ViewResp :=
  .okBody ⟨some "0 OCT", some "0", some "5 OCT", some "5000000", some "0 OCT"⟩

/-- Concrete `parseInt` for the C5 instances. -/
def pintC5 : String → Option Rat := fun s =>
  if s = "5000000" then some 5000000 else if s = "0" then some 0 else none

/-- Concrete `parseFloat` for the C5 instances. -/
def pfC5 : String → Option Rat := fun _ => some 0

/-- Concrete `encryptClientBalance` for the C5 instances. -/
def encFnW : Option Rat → String → String := fun _ _ => "ct"

/-- Concrete accepted POST outcome for the C5 instances. -/
def postW : PostOutcome := .okJson (some "h") none

/-- The parsed snapshot of `vrC5`. -/
def eC5 : EncryptedBalanceResponse :=
  ⟨some 0, some 0, some 0, some 5000000, some 0⟩

/-- Witness for C5: decrypting 6 OCT against an encrypted balance of
5000000 micro-units fails before any `/decrypt_balance` request, and the
encrypt path attempts its POST. -/
theorem privateBalance_bounds_witness :
    decryptBalance pfC5 pintC5 encFnW "addr" 6 "k" vrC5 postW
      = (⟨false, none, some "Insufficient encrypted balance"⟩,
         [NetReq.viewEncryptedBalance "addr"]) ∧
    (encryptBalance pfC5 pintC5 encFnW "addr" 6 "k" vrC5 postW).2
      = [NetReq.viewEncryptedBalance "addr",
         NetReq.encryptPost "addr" (toString (encDecAmountMu 6))] := by
  have h := privateBalance_bounds pfC5 pintC5 encFnW "addr" "k" 6 vrC5
    postW eC5 rfl
  exact ⟨h.1 5000000 rfl
    (by norm_num [encDecAmountMu, rat_floor_eq_intFloor]), h.2.2⟩

/-- Counterexample to C5 as stated: with a snapshot whose public balance is
0 micro-units and an encrypt amount of 5 OCT (5000000 micro-units, clearly
exceeding anything the public balance allows the network to debit),
`encryptBalance` attempts the `/encrypt_balance` request all the same and
reports the success of the network response: there is no client-side
pre-check on the encrypt side. -/
theorem encryptBalance_no_precheck_cex :
    eC5.public_raw = some 0 ∧
    (0 : Rat) < ((encDecAmountMu 5 : Int) : Rat) ∧
    NetReq.encryptPost "addr" (toString (encDecAmountMu 5))
      ∈ (encryptBalance pfC5 pintC5 encFnW "addr" 5 "k" vrC5 postW).2 ∧
    (encryptBalance pfC5 pintC5 encFnW "addr" 5 "k" vrC5 postW).1.success
      = true := by
  refine ⟨rfl, by norm_num [encDecAmountMu, rat_floor_eq_intFloor], ?_, rfl⟩
  unfold encryptBalance
  rw [show fetchEncryptedBalance pfC5 pintC5 vrC5 = some eC5 from rfl]
  dsimp only
  show NetReq.encryptPost "addr" (toString (encDecAmountMu 5))
    ∈ [NetReq.viewEncryptedBalance "addr",
       NetReq.encryptPost "addr" (toString (encDecAmountMu 5))]
  simp

/-- Claim C6: when the recipient's address info is unavailable or reports
`has_public_key: false`, `createPrivateTransfer` fails with "Recipient has
no public key" and attempts only the `/address` lookup — no public-key
fetch and no `/private_transfer` POST. -/
theorem createPrivateTransfer_no_pubkey (fromA toA : String) (amount : Rat)
    (addrInfo : Option AddrInfoResp) (pubKey : Option String)
    (post : PostOutcome)
    (h : addrInfo = none ∨ addrInfo = some ⟨false⟩) :
    createPrivateTransfer fromA toA amount addrInfo pubKey post
      = (⟨false, none, none, some "Recipient has no public key"⟩,
         [NetReq.addressInfo toA]) := by
  rcases h with h | h <;> subst h <;> rfl

/-- Witness for C6 at a concrete recipient reporting no public key. -/
theorem createPrivateTransfer_no_pubkey_witness :
    createPrivateTransfer "a" "b" 1 (some ⟨false⟩) (some "pk") postW
      = (⟨false, none, none, some "Recipient has no public key"⟩,
         [NetReq.addressInfo "b"]) :=
  createPrivateTransfer_no_pubkey "a" "b" 1 (some ⟨false⟩) (some "pk")
    postW (Or.inr rfl)

/-- Claim C7 (amended): `sendTransaction` succeeds exactly when the
`/send-tx` response is 2xx; the hash is `tx_hash` for an accepted JSON
body, the captured 64-hex string for a non-JSON body matching
`OK <64-hex-hash>`, and the raw body text for any other 2xx body; a non-2xx
response or a thrown fetch yields a failure carrying the body text
(resp. the thrown message) as the error detail. -/
theorem sendTransaction_spec (parse : String → Option ParsedBody)
    (o : SendNetOutcome) :
    ((sendTransaction parse o).success = true ↔
        ∃ text, o = .resp true text) ∧
    (∀ m, o = .threw m →
        sendTransaction parse o = ⟨false, none, some m⟩) ∧
    (∀ text, o = .resp false text →
        sendTransaction parse o = ⟨false, none, some text⟩) ∧
    (∀ text d, o = .resp true text → parse text = some d →
        d.status = some "accepted" →
        sendTransaction parse o = ⟨true, d.tx_hash, none⟩) ∧
    (∀ text d, o = .resp true text → parse text = some d →
        d.status ≠ some "accepted" →
        sendTransaction parse o = ⟨true, some text, none⟩) ∧
    (∀ text, o = .resp true text → parse text = none →
        sendTransaction parse o
          = ⟨true, some ((matchOKHash text).getD text), none⟩) := by
  have hsucc : ∀ text, (sendTransaction parse (.resp true text)).success
      = true := by
    intro text
    unfold sendTransaction
    dsimp only
    rw [if_pos rfl]
    cases hp : parse text with
    | none => cases hm : matchOKHash text <;> rfl
    | some d => by_cases hs : d.status = some "accepted" <;>
        simp [hs]
  refine ⟨⟨?_, ?_⟩, ?_, ?_, ?_, ?_, ?_⟩
  · intro hs
    cases o with
    | threw m => simp [sendTransaction] at hs
    | resp ok text =>
        cases ok with
        | false => simp [sendTransaction] at hs
        | true => exact ⟨text, rfl⟩
  · rintro ⟨text, rfl⟩
    exact hsucc text
  · intro m h
    subst h
    rfl
  · intro text h
    subst h
    rfl
  · intro text d h hp hs
    subst h
    simp [sendTransaction, hp, hs]
  · intro text d h hp hs
    subst h
    simp [sendTransaction, hp, hs]
  · intro text h hp
    subst h
    cases hm : matchOKHash text <;> simp [sendTransaction, hp, hm]

/-- Witness for C7 at concrete responses: a 2xx accepted-JSON body yields
success with its `tx_hash`, a non-2xx body yields a failure carrying the
body, and a 2xx body matching `OK <64-hex>` yields the captured hash. -/
theorem sendTransaction_spec_witness :
    sendTransaction parseW (.resp true "acc") = ⟨true, some "h1", none⟩ ∧
    sendTransaction parseW (.resp false "no") = ⟨false, none, some "no"⟩ ∧
    sendTransaction noParse (.resp true
        ("OK aaaaaaaaaaaaaaaaaaaaaaaaaaaaaaaaaaaaaaaaaaaaaaaaaaaaaaaaaaaaaaaa"))
      = ⟨true,
         some "aaaaaaaaaaaaaaaaaaaaaaaaaaaaaaaaaaaaaaaaaaaaaaaaaaaaaaaaaaaaaaaa",
         none⟩ := by
  refine ⟨(sendTransaction_spec parseW (.resp true "acc")).2.2.2.1 "acc"
      ⟨some "accepted", some "h1"⟩ rfl rfl rfl,
    (sendTransaction_spec parseW (.resp false "no")).2.2.1 "no" rfl, ?_⟩
  have h := (sendTransaction_spec noParse (.resp true
    ("OK aaaaaaaaaaaaaaaaaaaaaaaaaaaaaaaaaaaaaaaaaaaaaaaaaaaaaaaaaaaaaaaa"))).2.2.2.2.2
    _ rfl rfl
  rw [h]
  rfl

/-- Counterexample to C7 as stated: the 2xx body "hello" is neither
accepted JSON nor an `OK <hash>` line, yet `sendTransaction` reports
success with the raw body as hash, where the claim requires a failure
carrying the body as error detail. -/
theorem sendTransaction_claim_cex :
    sendTransaction noParse (.resp true "hello")
      = ⟨true, some "hello", none⟩ ∧
    ¬ specSendClaim noParse (.resp true "hello") := by
  refine ⟨rfl, ?_⟩
  intro hcl
  unfold specSendClaim at hcl
  have hs := hcl.1.mp rfl
  rcases hs with ⟨-, h | h⟩
  · exact h
  · rw [show matchOKHash "hello" = none from rfl] at h
    simp at h

/-- Claim C9 (amended): the operations that return result records are
exception-free — `sendTransaction`, `encryptBalance`, `decryptBalance` and
`createPrivateTransfer` turn even a thrown fetch into an explicit failure
result, for every oracle behaviour — but the policy is not uniform across
the core: `fetchBalance` rethrows when the confirmed-count read fails, and
`importWalletFromPrivateKey` throws "Invalid private key length" on a
malformed hex key such as "0xab". -/
theorem corePropagation_policy (parse : String → Option ParsedBody)
    (pf pint : String → Option Rat) (encFn : Option Rat → String → String)
    (hexdec b64dec : String → List Nat)
    (fromSeedPub : List Nat → Option (List Nat))
    (createAddr : List Nat → Option String)
    (b64enc hexenc : List Nat → String)
    (m address privateKey fromA toA : String) (amount : Rat)
    (vr : ViewResp) (addrInfo : Option AddrInfoResp)
    (pubKey : Option String) (st : StagingOutcome) :
    sendTransaction parse (.threw m) = ⟨false, none, some m⟩ ∧
    (encryptBalance pf pint encFn address amount privateKey vr
        (.threw m)).1.success = false ∧
    (decryptBalance pf pint encFn address amount privateKey vr
        (.threw m)).1.success = false ∧
    (createPrivateTransfer fromA toA amount addrInfo pubKey
        (.threw m)).1.success = false ∧
    fetchBalance pf pint address (.netFail m) st = .error m ∧
    importWalletFromPrivateKey hexdec b64dec fromSeedPub createAddr
        b64enc hexenc "0xab" = .error "Invalid private key length" := by
  refine ⟨rfl, ?_, ?_, ?_, rfl, ?_⟩
  · unfold encryptBalance
    cases fetchEncryptedBalance pf pint vr <;> rfl
  · unfold decryptBalance
    cases fetchEncryptedBalance pf pint vr with
    | none => rfl
    | some e =>
        dsimp only
        split <;> rfl
  · unfold createPrivateTransfer
    cases addrInfo with
    | none => rfl
    | some info =>
        dsimp only
        cases info with
        | mk b =>
            cases b with
            | false => rfl
            | true => cases pubKey <;> rfl
  · rfl

/-- Counterexample to C9 as stated: an exception escapes two public core
operations (embedded as `Except.error`): `importWalletFromPrivateKey`
throws on the concrete input "0xab", and `fetchBalance` rethrows a failed
confirmed-count read instead of returning an outcome record. -/
theorem coreThrows_cex :
    importWalletFromPrivateKey hexdecW b64decW (fun _ => none)
        (fun _ => none) (fun _ => "") (fun _ => "") "0xab"
      = .error "Invalid private key length" ∧
    fetchBalance pfW pintW "addr" (.netFail "balance down") .netFail
      = .error "balance down" :=
  ⟨rfl, rfl⟩
